import Mathlib

set_option autoImplicit false

/-!
Verification of the oes-birger tunnel core against its design document.

The definitions below are a shallow embedding of the Go sources:
* `internal/tunnelroute` (the `ConnectedRoutes` table: `Add`, `Remove`,
  `findService`, `Send`),
* the agent-side Kubernetes endpoint executor
  (`executeHTTPRequest`, `loadServiceAccount`, `kubeContext.isSameAs`),
* the controller's agent-name extraction from the peer certificate
  (`getAgentNameFromContext`, `getAgentNameFromCertificate`).

Effects (locks, channels, random draws, file and network I/O) are made
explicit as parameters; machine behaviour that is not under the embedded
sources (the concrete `Route` implementation, the JSON decoder, the CA
helper) is modelled from the design document and marked as such.
-/

namespace OesBirger

/-- Endpoint descriptor advertised by an agent (`EndpointHealth` in
tunnel.proto / the tunnelroute `Endpoint`): a named, typed capability with a
`configured` flag.  Fields irrelevant to route selection (namespaces, AWS
account data) are omitted. -/
structure Endpoint where
  name : String
  type : String
  configured : Bool
  deriving DecidableEq, Repr, Inhabited

/-- A live agent session as seen by the route table (the `Route` interface of
the tunnelroute package).  Go compares routes by interface identity; the spec
makes the session id unique per connection, so structural equality models
identity. -/
structure Route where
  name : String
  session : String
  endpoints : List Endpoint
  deriving DecidableEq, Repr, Inhabited

/-- Modelled from the spec: the concrete route's `HasEndpoint(type, name)`
implementation is not under src/.  §3 of the design: lookup returns the routes
whose endpoints include a matching `configured=true` descriptor, and
`configured=false` endpoints must be skipped by route selection. -/
def Route.HasEndpoint (r : Route) (etype ename : String) : Bool :=
  r.endpoints.any fun e => e.type == etype && e.name == ename && e.configured

/-- Modelled from the spec: the concrete route's `Send(message)` ("hands the
message to that route's send channel, returns the chosen session id") is not
under src/.  The enqueue is a side effect on the route itself; the value
returned to the table is the route's session id. -/
def Route.Send {α : Type} (r : Route) (_message : α) : String :=
  r.session

/-- Modelled from the spec: the `Search` struct (not under src/) carries the
lookup key `(agent-name, endpoint-type, endpoint-name)` and optionally a
session id. -/
structure Search where
  name : String
  endpointType : String
  endpointName : String
  session : String
  deriving DecidableEq, Repr, Inhabited

/-- `ConnectedRoutes` of the tunnelroute package: the map `name → []Route`,
plus the per-name `connectedRoutesGauge`.  `none` models a key that is absent
from the Go map, `some l` a present key (Go distinguishes the two through the
`ok` result of a map read).  The gauge value is the running Inc/Dec count. -/
@[ext]
structure ConnectedRoutes where
  m : String → Option (List Route)
  gauge : String → Int

/-- `MakeRoutes()`: a table with an empty map (and every gauge at zero). -/
def MakeRoutes : ConnectedRoutes :=
  { m := fun _ => none, gauge := fun _ => 0 }

/-- `sliceIndex(limit, predicate)`: the first index `i < limit` satisfying the
predicate, `-1` if there is none. -/
def sliceIndex (limit : Nat) (predicate : Nat → Bool) : Int :=
  match (List.range limit).find? predicate with
  | some i => (i : Int)
  | none => -1

/-- The list of routes registered under a name; `[]` both for an absent key
and for a present key holding an empty slice (`findService` and `Cancel`
treat the two alike: `!ok || len(routeList) == 0`). -/
def ConnectedRoutes.routesOf (s : ConnectedRoutes) (n : String) : List Route :=
  (s.m n).getD []

/-- `ConnectedRoutes.Add`: append the route to the slice under its name
(creating the slice when the key is absent), store it back, and increment the
per-name gauge. -/
def ConnectedRoutes.Add (s : ConnectedRoutes) (state : Route) : ConnectedRoutes :=
  let routeList := ((s.m state.name).getD []) ++ [state]
  { m := fun n => if n = state.name then some routeList else s.m n
    gauge := fun n => if n = state.name then s.gauge n + 1 else s.gauge n }

/-- `ConnectedRoutes.Remove`: look up the slice under the route's name; a
missing key or a missing identity-matching element is a logged no-op;
otherwise remove the element by swap-with-last-then-truncate, store the slice
back, and decrement the gauge.  (`state.Close()` is called first but does not
touch the table; `decide (_ = state)` renders Go's interface identity test
`routeList[i] == state`.) -/
def ConnectedRoutes.Remove (s : ConnectedRoutes) (state : Route) : ConnectedRoutes :=
  match s.m state.name with
  | none => s
  | some routeList =>
    let i := sliceIndex routeList.length fun i => decide (routeList.getD i default = state)
    if i = -1 then s
    else
      let routeList' :=
        (routeList.set i.toNat (routeList.getD (routeList.length - 1) default)).take
          (routeList.length - 1)
      { m := fun n => if n = state.name then some routeList' else s.m n
        gauge := fun n => if n = state.name then s.gauge n - 1 else s.gauge n }

/-- `findService`: error when no slice is registered under the searched name
or the slice is empty; otherwise collect the indices of routes whose
`HasEndpoint` matches the search, error when there are none, and select one
of them (Go draws `rnd.Intn(len(possibleRoutes))`; the model takes the draw
`pick` as a parameter, reduced modulo the candidate count). -/
def ConnectedRoutes.findService (s : ConnectedRoutes) (ep : Search) (pick : Nat) :
    Except String Route :=
  match s.m ep.name with
  | none => .error ("no routes connected for " ++ ep.name)
  | some routeList =>
    if routeList.length = 0 then .error ("no routes connected for " ++ ep.name)
    else
      let possibleRoutes := (List.range routeList.length).filter
        fun i => (routeList.getD i default).HasEndpoint ep.endpointType ep.endpointName
      match possibleRoutes with
      | [] => .error ("request for " ++ ep.name ++ ", no such route exists or all are unconfigured")
      | p :: ps =>
        let selected := (p :: ps).getD (pick % (p :: ps).length) 0
        .ok (routeList.getD selected default)

/-- `ConnectedRoutes.Send`: find a route via `findService` and hand the
message to it, returning the session id reported by the route's `Send`.  The
model additionally returns the chosen route itself, standing for the delivery
of the message to that route's send channel. -/
def ConnectedRoutes.Send {α : Type} (s : ConnectedRoutes) (ep : Search) (message : α)
    (pick : Nat) : Except String (String × Route) :=
  match s.findService ep pick with
  | .error e => .error e
  | .ok route => .ok (route.Send message, route)

/-! ### Helper lemmas about the route table -/

theorem getD_mem_of_lt {α : Type} [Inhabited α] (l : List α) (n : Nat) (h : n < l.length) :
    l.getD n default ∈ l := by
  rw [List.getD_eq_getElem l default h]
  exact List.getElem_mem h

theorem sliceIndex_eq_neg_one {limit : Nat} {p : Nat → Bool}
    (h : ∀ i < limit, p i = false) : sliceIndex limit p = -1 := by
  unfold sliceIndex
  cases hfind : (List.range limit).find? p with
  | none => rfl
  | some a =>
    have ha := List.find?_some hfind
    have hmem : a < limit := by simpa using List.mem_of_find?_eq_some hfind
    rw [h a hmem] at ha
    cases ha

theorem sliceIndex_spec {limit : Nat} {p : Nat → Bool} {i : Nat}
    (h : sliceIndex limit p = (i : Int)) : i < limit ∧ p i = true := by
  unfold sliceIndex at h
  cases hfind : (List.range limit).find? p with
  | none => rw [hfind] at h; cases h
  | some a =>
    rw [hfind] at h
    simp only at h
    have ha : a = i := by exact_mod_cast h
    subst ha
    exact ⟨by simpa using List.mem_of_find?_eq_some hfind, List.find?_some hfind⟩

theorem sliceIndex_exists_of_found {limit : Nat} {p : Nat → Bool} {j : Nat}
    (hj : j < limit) (hpj : p j = true) : ∃ i : Nat, sliceIndex limit p = (i : Int) := by
  unfold sliceIndex
  cases hfind : (List.range limit).find? p with
  | none =>
    exfalso
    exact absurd hpj (by simpa using List.find?_eq_none.mp hfind j (List.mem_range.mpr hj))
  | some a => exact ⟨a, rfl⟩

theorem getD_concat_length (L : List Route) (r : Route) :
    (L ++ [r]).getD L.length default = r := by
  rw [List.getD_eq_getElem (L ++ [r]) default (by simp)]
  exact List.getElem_concat_length L r L.length rfl (by simp)

/-- Removing the element found at index `i` of `L ++ [r]` by
swap-with-last-then-truncate gives back `L`, whenever position `i` indeed
holds `r`. -/
theorem swapRemove_append (L : List Route) (r : Route) (i : Nat)
    (_hle : i < L.length + 1) (hget : (L ++ [r]).getD i default = r) :
    ((L ++ [r]).set i ((L ++ [r]).getD ((L ++ [r]).length - 1) default)).take
      ((L ++ [r]).length - 1) = L := by
  have hlen : (L ++ [r]).length = L.length + 1 := by simp
  have hlast : (L ++ [r]).getD ((L ++ [r]).length - 1) default = r := by
    rw [hlen]
    simp only [Nat.add_sub_cancel]
    rw [List.getD_eq_getElem (L ++ [r]) default (by simp)]
    exact List.getElem_concat_length L r L.length rfl (by simp)
  rw [hlast]
  apply List.ext_getElem
  · simp
  · intro j hj1 hj2
    have hjL : j < L.length := by simpa using hj2
    rw [List.getElem_take]
    rw [List.getElem_set]
    by_cases hij : i = j
    · subst hij
      have hiL : i < L.length := hjL
      rw [List.getD_eq_getElem (L ++ [r]) default (by simp; omega)] at hget
      rw [List.getElem_append_left hiL] at hget
      simp [hiL, hget]
    · rw [if_neg hij]
      exact List.getElem_append_left hjL

theorem Route.HasEndpoint_eq_true_iff (r : Route) (et en : String) :
    r.HasEndpoint et en = true ↔
      ∃ e ∈ r.endpoints, e.type = et ∧ e.name = en ∧ e.configured = true := by
  simp [Route.HasEndpoint, List.any_eq_true, Bool.and_eq_true, beq_iff_eq, and_assoc]

theorem ConnectedRoutes.findService_ok {s : ConnectedRoutes} {ep : Search} {pick : Nat}
    {r : Route} (h : s.findService ep pick = .ok r) :
    r ∈ s.routesOf ep.name ∧ r.HasEndpoint ep.endpointType ep.endpointName = true := by
  unfold ConnectedRoutes.findService at h
  cases hm : s.m ep.name with
  | none => rw [hm] at h; cases h
  | some routeList =>
    rw [hm] at h
    dsimp only at h
    by_cases hlen : routeList.length = 0
    · rw [if_pos hlen] at h; cases h
    rw [if_neg hlen] at h
    cases hf : (List.range routeList.length).filter
        (fun i => (routeList.getD i default).HasEndpoint ep.endpointType ep.endpointName) with
    | nil => rw [hf] at h; cases h
    | cons p ps =>
      rw [hf] at h
      dsimp only at h
      have hsel : (p :: ps).getD (pick % (p :: ps).length) 0 ∈ p :: ps :=
        getD_mem_of_lt _ _ (Nat.mod_lt _ (Nat.succ_pos _))
      have hself : (p :: ps).getD (pick % (p :: ps).length) 0 ∈
          (List.range routeList.length).filter
            (fun i => (routeList.getD i default).HasEndpoint ep.endpointType ep.endpointName) := by
        rw [hf]; exact hsel
      rw [List.mem_filter] at hself
      obtain ⟨hmem, hpred⟩ := hself
      have hlt := List.mem_range.mp hmem
      injection h with h
      subst h
      refine ⟨?_, hpred⟩
      rw [ConnectedRoutes.routesOf, hm]
      exact getD_mem_of_lt _ _ hlt

theorem ConnectedRoutes.findService_error_of_forall {s : ConnectedRoutes} {ep : Search}
    (pick : Nat)
    (h : ∀ r ∈ s.routesOf ep.name, r.HasEndpoint ep.endpointType ep.endpointName = false) :
    ∃ e, s.findService ep pick = .error e := by
  unfold ConnectedRoutes.findService
  cases hm : s.m ep.name with
  | none => exact ⟨_, rfl⟩
  | some routeList =>
    dsimp only
    by_cases hlen : routeList.length = 0
    · rw [if_pos hlen]; exact ⟨_, rfl⟩
    rw [if_neg hlen]
    have hroutes : s.routesOf ep.name = routeList := by
      rw [ConnectedRoutes.routesOf, hm]; rfl
    have hfilter : (List.range routeList.length).filter
        (fun i => (routeList.getD i default).HasEndpoint ep.endpointType ep.endpointName)
          = [] := by
      rw [List.filter_eq_nil_iff]
      intro i hi
      have hilt := List.mem_range.mp hi
      have := h (routeList.getD i default) (hroutes ▸ getD_mem_of_lt routeList i hilt)
      simpa using this
    rw [hfilter]
    exact ⟨_, rfl⟩

theorem ConnectedRoutes.findService_ok_of_exists {s : ConnectedRoutes} {ep : Search}
    (pick : Nat)
    (h : ∃ r ∈ s.routesOf ep.name, r.HasEndpoint ep.endpointType ep.endpointName = true) :
    ∃ r, s.findService ep pick = .ok r := by
  obtain ⟨r, hr, hep⟩ := h
  rw [ConnectedRoutes.routesOf] at hr
  cases hm : s.m ep.name with
  | none => rw [hm] at hr; simp at hr
  | some routeList =>
    rw [hm] at hr
    replace hr : r ∈ routeList := hr
    have hlen : routeList.length ≠ 0 := by
      intro h0
      rw [List.length_eq_zero] at h0
      subst h0
      simp at hr
    obtain ⟨⟨i, hi⟩, hget⟩ := List.mem_iff_get.mp hr
    have hfi : i ∈ (List.range routeList.length).filter
        (fun j => (routeList.getD j default).HasEndpoint ep.endpointType ep.endpointName) := by
      rw [List.mem_filter]
      refine ⟨List.mem_range.mpr hi, ?_⟩
      rw [List.getD_eq_getElem routeList default hi]
      have hgr : routeList[i] = r := by simpa using hget
      rw [hgr]
      exact hep
    cases hf : (List.range routeList.length).filter
        (fun j => (routeList.getD j default).HasEndpoint ep.endpointType ep.endpointName) with
    | nil => rw [hf] at hfi; cases hfi
    | cons p ps =>
      refine ⟨routeList.getD ((p :: ps).getD (pick % (p :: ps).length) 0) default, ?_⟩
      unfold ConnectedRoutes.findService
      rw [hm]
      dsimp only
      rw [if_neg hlen, hf]

/-! ### Claim theorems: route table -/

/-- Example route advertising a configured kubernetes endpoint, used by the
concrete witnesses below. -/
def rKube : Route :=
  { name := "a1", session := "sessA",
    endpoints := [{ name := "prod", type := "kubernetes", configured := true }] }

/-- Example route advertising only an unconfigured kubernetes endpoint. -/
def rUnconfigured : Route :=
  { name := "a1", session := "sessB",
    endpoints := [{ name := "prod", type := "kubernetes", configured := false }] }

/-- Example search key used by the concrete witnesses below. -/
def searchProd : Search :=
  { name := "a1", endpointType := "kubernetes", endpointName := "prod", session := "" }

/-- C1: `Send` fails with a no-route error when no route registered under the
searched name has a matching endpoint (in particular when the name is absent
from the table); otherwise it succeeds, handing the message to a route that
is present in the table with the matching endpoint at the moment of
selection, and returning that route's session id. -/
theorem Send_no_route_or_matching_session {α : Type} (s : ConnectedRoutes) (ep : Search)
    (message : α) (pick : Nat) :
    ((∀ r ∈ s.routesOf ep.name, r.HasEndpoint ep.endpointType ep.endpointName = false) →
      ∃ e, s.Send ep message pick = .error e) ∧
    ((∃ r ∈ s.routesOf ep.name, r.HasEndpoint ep.endpointType ep.endpointName = true) →
      ∃ r, r ∈ s.routesOf ep.name ∧ r.HasEndpoint ep.endpointType ep.endpointName = true ∧
        s.Send ep message pick = .ok (r.session, r)) := by
  constructor
  · intro hall
    obtain ⟨e, he⟩ := ConnectedRoutes.findService_error_of_forall pick hall
    exact ⟨e, by unfold ConnectedRoutes.Send; rw [he]⟩
  · intro hex
    obtain ⟨r, hfs⟩ := ConnectedRoutes.findService_ok_of_exists pick hex
    obtain ⟨hmem, hep⟩ := ConnectedRoutes.findService_ok hfs
    exact ⟨r, hmem, hep, by unfold ConnectedRoutes.Send; rw [hfs]; rfl⟩

/-- Witness for C1 at concrete inputs: on the empty table the send fails; on
a table holding a matching route it succeeds with that route's session. -/
theorem Send_no_route_or_matching_session_witness :
    (∃ e, MakeRoutes.Send searchProd "m" 0 = .error e) ∧
    (∃ r, r ∈ (MakeRoutes.Add rKube).routesOf searchProd.name ∧
      r.HasEndpoint searchProd.endpointType searchProd.endpointName = true ∧
      (MakeRoutes.Add rKube).Send searchProd "m" 0 = .ok (r.session, r)) :=
  ⟨(Send_no_route_or_matching_session MakeRoutes searchProd "m" 0).1 (by decide),
   (Send_no_route_or_matching_session (MakeRoutes.Add rKube) searchProd "m" 0).2 (by decide)⟩

/-- C4: the selected route always carries a `configured=true` endpoint
matching the search, so a route with none is never chosen; and when every
route under the searched name lacks such an endpoint — even though routes
under the name exist — `findService` returns an error. -/
theorem findService_skips_unconfigured (s : ConnectedRoutes) (ep : Search) (pick : Nat) :
    (∀ r, s.findService ep pick = .ok r →
      ∃ e ∈ r.endpoints, e.type = ep.endpointType ∧ e.name = ep.endpointName ∧
        e.configured = true) ∧
    (s.routesOf ep.name ≠ [] →
      (∀ r ∈ s.routesOf ep.name, ∀ e ∈ r.endpoints,
        ¬(e.type = ep.endpointType ∧ e.name = ep.endpointName ∧ e.configured = true)) →
      ∃ err, s.findService ep pick = .error err) := by
  constructor
  · intro r hok
    have h2 := (ConnectedRoutes.findService_ok hok).2
    rwa [Route.HasEndpoint_eq_true_iff] at h2
  · intro _hne hall
    apply ConnectedRoutes.findService_error_of_forall
    intro r hr
    rw [← Bool.not_eq_true, Route.HasEndpoint_eq_true_iff]
    rintro ⟨e, he, h1, h2, h3⟩
    exact hall r hr e he ⟨h1, h2, h3⟩

/-- Witness for C4 at concrete inputs: the route chosen from a table with a
configured endpoint carries it; a table whose only route under the name is
unconfigured yields an error. -/
theorem findService_skips_unconfigured_witness :
    (∃ e ∈ rKube.endpoints, e.type = searchProd.endpointType ∧
      e.name = searchProd.endpointName ∧ e.configured = true) ∧
    (∃ err, (MakeRoutes.Add rUnconfigured).findService searchProd 0 = .error err) :=
  ⟨(findService_skips_unconfigured (MakeRoutes.Add rKube) searchProd 0).1 rKube rfl,
   (findService_skips_unconfigured (MakeRoutes.Add rUnconfigured) searchProd 0).2
     (by decide) (by decide)⟩

/-- C7: `Remove` of a route that is not present in the table — the name is
absent from the map, or the slice under the name has no identity-matching
element — returns without changing the map or the gauge. -/
theorem Remove_missing_noop (s : ConnectedRoutes) (r : Route)
    (h : s.m r.name = none ∨ ∀ l, s.m r.name = some l → r ∉ l) :
    s.Remove r = s := by
  unfold ConnectedRoutes.Remove
  cases hm : s.m r.name with
  | none => rfl
  | some l =>
    rcases h with h | h
    · rw [hm] at h; cases h
    have hr : r ∉ l := h l hm
    have hidx : sliceIndex l.length (fun i => decide (l.getD i default = r)) = -1 := by
      apply sliceIndex_eq_neg_one
      intro i hi
      have : l.getD i default ≠ r := fun heq => hr (heq ▸ getD_mem_of_lt l i hi)
      simpa using this
    simp only [hidx]
    rfl

/-- Witness for C7 at a concrete input: removing a route from the empty table
leaves the empty table. -/
theorem Remove_missing_noop_witness :
    MakeRoutes.Remove { name := "a", session := "s1", endpoints := [] } = MakeRoutes :=
  Remove_missing_noop MakeRoutes _ (Or.inl rfl)

/-- C5 (counterexample): `Add(r); Remove(r)` does not restore the raw table
state when `r.name` was absent from the map — the Go code stores the truncated
slice back, so the name remains as a key holding an empty slice. -/
theorem Add_Remove_raw_state_counterexample :
    (MakeRoutes.Add { name := "a", session := "s1", endpoints := [] }).Remove
        { name := "a", session := "s1", endpoints := [] } ≠ MakeRoutes := fun h =>
  absurd (congrArg (fun t => t.m "a") h) (by decide)

/-- C5 (amended): `Add(r); Remove(r)` restores every name's registered route
list and the whole gauge; the raw map is restored exactly whenever `r.name`
already was a key of the map.  (When `r.name` was absent, the key remains,
holding an empty slice — see the counterexample.) -/
theorem Add_Remove_restores (s : ConnectedRoutes) (r : Route) :
    (∀ n, ((s.Add r).Remove r).routesOf n = s.routesOf n) ∧
    (∀ n, ((s.Add r).Remove r).gauge n = s.gauge n) ∧
    (∀ l, s.m r.name = some l → (s.Add r).Remove r = s) := by
  have hm' : (s.Add r).m r.name = some (((s.m r.name).getD []) ++ [r]) := by
    simp [ConnectedRoutes.Add]
  set L := (s.m r.name).getD [] with hL
  obtain ⟨i₀, hidx⟩ := @sliceIndex_exists_of_found ((L ++ [r]).length)
    (fun i => decide ((L ++ [r]).getD i default = r))
    L.length (by simp) (by simp [getD_concat_length])
  obtain ⟨hi₀lt, hi₀p⟩ := sliceIndex_spec hidx
  have hi₀get : (L ++ [r]).getD i₀ default = r := by simpa using hi₀p
  have hswap :
      ((L ++ [r]).set i₀ ((L ++ [r]).getD ((L ++ [r]).length - 1) default)).take
        ((L ++ [r]).length - 1) = L :=
    swapRemove_append L r i₀ (by simpa using hi₀lt) hi₀get
  have hrm : (s.Add r).Remove r =
      { m := fun n => if n = r.name then some L else (s.Add r).m n
        gauge := fun n => if n = r.name then (s.Add r).gauge n - 1 else (s.Add r).gauge n } := by
    unfold ConnectedRoutes.Remove
    rw [hm']
    dsimp only
    rw [hidx]
    rw [if_neg (by omega)]
    simp only [Int.toNat_natCast]
    rw [hswap]
  refine ⟨?_, ?_, ?_⟩
  · intro n
    rw [hrm]
    unfold ConnectedRoutes.routesOf
    by_cases hn : n = r.name
    · subst hn; simp [hL]
    · simp only [hn, if_neg hn, ite_false]
      simp [ConnectedRoutes.Add, hn]
  · intro n
    rw [hrm]
    by_cases hn : n = r.name
    · subst hn
      simp only [if_pos rfl]
      simp [ConnectedRoutes.Add]
    · simp only [if_neg hn]
      simp [ConnectedRoutes.Add, hn]
  · intro l hml
    rw [hrm]
    have hLl : L = l := by rw [hL, hml]; rfl
    ext n
    · by_cases hn : n = r.name
      · subst hn; simp [hLl, hml]
      · simp only [if_neg hn]
        simp [ConnectedRoutes.Add, hn]
    · by_cases hn : n = r.name
      · subst hn; simp [ConnectedRoutes.Add]
      · simp only [if_neg hn]
        simp [ConnectedRoutes.Add, hn]

/-- Witness for C5 at a concrete input: on a table that already has the key
`"a1"`, adding and removing a route restores the table exactly. -/
theorem Add_Remove_restores_witness :
    ((MakeRoutes.Add { name := "a1", session := "sA", endpoints := [] }).Add
          { name := "a1", session := "sB", endpoints := [] }).Remove
        { name := "a1", session := "sB", endpoints := [] } =
      MakeRoutes.Add { name := "a1", session := "sA", endpoints := [] } :=
  (Add_Remove_restores (MakeRoutes.Add { name := "a1", session := "sA", endpoints := [] })
      { name := "a1", session := "sB", endpoints := [] }).2.2
    [{ name := "a1", session := "sA", endpoints := [] }] (by decide)

/-! ### Agent-side Kubernetes executor (src/app/agent/kubernetes.go) -/

/-- Outcome of one `get.Body.Read(buf)` call beside the data: `io.EOF`,
`context.Canceled`, or any other read error. -/
inductive ReadErr
  | eof
  | canceled
  | other
  deriving DecidableEq, Repr

/-- One `get.Body.Read(buf)` result: the bytes placed into the 10240-byte
buffer (`n` is their count, at most the buffer size by the reader contract)
and the error returned alongside them (`none` renders Go's nil). -/
structure ReadStep where
  bytes : List UInt8
  err : Option ReadErr
  deriving DecidableEq, Repr

/-- A tunnel frame as the executor emits it: `HttpTunnelResponse`
(transaction id, status) or `HttpTunnelChunkedResponse` (transaction id,
body), as in tunnel.proto.  Response headers and content length do not
matter to the claims and are omitted. -/
inductive Frame
  | response (id : String) (status : Int)
  | chunk (id : String) (body : List UInt8)
  deriving DecidableEq, Repr

/-- Modelled from the spec: `makeChunkedResponse(id, data)` (not under src/)
wraps the bytes in an `HttpTunnelChunkedResponse` frame for the
transaction. -/
def makeChunkedResponse (id : String) (data : List UInt8) : Frame := .chunk id data

/-- Modelled from the spec: `makeResponse(id, get)` (not under src/) builds
the `HttpTunnelResponse` header frame carrying the upstream status code. -/
def makeResponse (id : String) (status : Int) : Frame := .response id status

/-- Modelled from the spec: `makeBadGatewayResponse(id)` (not under src/)
synthesizes an `HttpTunnelResponse` frame with status 502 Bad Gateway. -/
def makeBadGatewayResponse (id : String) : Frame := .response id 502

/-- `emptyBytes`: the zero-length chunk body. -/
def emptyBytes : List UInt8 := []

/-- The upstream HTTP response as the executor observes it: status code and
the successive results of `get.Body.Read` on its body. -/
structure HttpResult where
  status : Int
  reads : List ReadStep
  deriving DecidableEq, Repr

/-- The executor's body-streaming loop: each read emits its bytes as a chunk
when `n > 0`; `io.EOF` emits the zero-length terminal chunk and stops; a
cancelled context stops silently with no terminal chunk; any other read
error is downgraded to the zero-length terminal chunk ("For now, just send
EOF").  An exhausted reads list corresponds to a `Read` call that never
returns and emits nothing further. -/
def streamBody (id : String) : List ReadStep → List Frame
  | [] => []
  | s :: rest =>
    let dataFrames := if 0 < s.bytes.length then [makeChunkedResponse id s.bytes] else []
    match s.err with
    | some .eof => dataFrames ++ [makeChunkedResponse id emptyBytes]
    | some .canceled => dataFrames
    | some .other => dataFrames ++ [makeChunkedResponse id emptyBytes]
    | none => dataFrames ++ streamBody id rest

/-- `executeHTTPRequest` with its effects as parameters: `buildErr` is a
failure of `http.NewRequestWithContext`, `doResult` the outcome of
`client.Do`.  Either failure sends the synthesized 502 frame and stops;
success sends the header frame first and then streams the body. -/
def executeHTTPRequest (id : String) (buildErr : Bool)
    (doResult : Except String HttpResult) : List Frame :=
  if buildErr then [makeBadGatewayResponse id]
  else
    match doResult with
    | .error _ => [makeBadGatewayResponse id]
    | .ok get => makeResponse id get.status :: streamBody id get.reads

/-- A data chunk for the transaction: non-empty body of at most 10240
bytes. -/
def goodBodyChunk (id : String) : Frame → Bool
  | Frame.chunk cid b => cid == id && decide (0 < b.length) && decide (b.length ≤ 10240)
  | _ => false

/-- A run of data chunks for the transaction closed by exactly one
zero-length chunk. -/
def chunksThenTerminal (id : String) : List Frame → Bool
  | [] => false
  | [f] => decide (f = Frame.chunk id [])
  | f :: rest => goodBodyChunk id f && chunksThenTerminal id rest

/-- Claim C2's frame grammar for one transaction, stated from the spec: the
header frame first, then non-empty chunks of at most 10 KiB, terminated by
exactly one zero-length chunk; no chunk before the header. -/
def conformsC2 (id : String) (frames : List Frame) : Bool :=
  match frames with
  | Frame.response rid _ :: rest => rid == id && chunksThenTerminal id rest
  | _ => false

/-! ### Helper lemmas about the executor -/

theorem streamBody_ends_empty_chunk (id : String) (pre : List ReadStep) (last : ReadStep)
    (hpre : ∀ x ∈ pre, x.err = none)
    (hterm : last.err = some .eof ∨ last.err = some .other) :
    ∃ mid, streamBody id (pre ++ [last]) = mid ++ [makeChunkedResponse id emptyBytes] := by
  induction pre with
  | nil =>
    rcases hterm with h | h <;>
      exact ⟨if 0 < last.bytes.length then [makeChunkedResponse id last.bytes] else [],
        by simp only [List.nil_append, streamBody, h]⟩
  | cons s t ih =>
    have hs : s.err = none := hpre s (by simp)
    obtain ⟨mid, hmid⟩ := ih fun x hx => hpre x (by simp [hx])
    refine ⟨(if 0 < s.bytes.length then [makeChunkedResponse id s.bytes] else []) ++ mid, ?_⟩
    simp only [List.cons_append, streamBody, hs, List.append_eq]
    rw [hmid, List.append_assoc]

theorem chunksThenTerminal_cons (id : String) (f : Frame) (rest : List Frame)
    (hne : rest ≠ []) :
    chunksThenTerminal id (f :: rest) = (goodBodyChunk id f && chunksThenTerminal id rest) := by
  cases rest with
  | nil => exact absurd rfl hne
  | cons g gs => rfl

theorem chunksThenTerminal_streamBody (id : String) (pre : List ReadStep) (last : ReadStep)
    (hpre : ∀ x ∈ pre, x.err = none)
    (hsize : ∀ x ∈ pre ++ [last], x.bytes.length ≤ 10240)
    (hterm : last.err = some .eof ∨ last.err = some .other) :
    chunksThenTerminal id (streamBody id (pre ++ [last])) = true := by
  induction pre with
  | nil =>
    have hlast : last.bytes.length ≤ 10240 := hsize last (by simp)
    rcases hterm with h | h <;>
    · simp only [List.nil_append, streamBody, h]
      by_cases hb : 0 < last.bytes.length
      · rw [if_pos hb]
        simp [chunksThenTerminal, goodBodyChunk, makeChunkedResponse, emptyBytes, hb, hlast]
      · rw [if_neg hb]
        simp [chunksThenTerminal, makeChunkedResponse, emptyBytes]
  | cons s t ih =>
    have hs : s.err = none := hpre s (by simp)
    have hrec := ih (fun x hx => hpre x (by simp [hx])) (fun x hx => hsize x (by simp at hx ⊢; tauto))
    obtain ⟨mid, hmid⟩ := streamBody_ends_empty_chunk id t last (fun x hx => hpre x (by simp [hx])) hterm
    have hne : streamBody id (t ++ [last]) ≠ [] := by
      rw [hmid]; simp
    simp only [List.cons_append, streamBody, hs, List.append_eq]
    by_cases hb : 0 < s.bytes.length
    · rw [if_pos hb]
      rw [List.singleton_append, chunksThenTerminal_cons id _ _ hne]
      have hsb : s.bytes.length ≤ 10240 := hsize s (by simp)
      simp [goodBodyChunk, makeChunkedResponse, hb, hsb, hrec]
    · rw [if_neg hb]
      simpa using hrec

/-! ### Claim theorems: executor -/

/-- C2 (counterexample): when the outbound call succeeds but the body read
then reports `context.Canceled`, the executor stops without the zero-length
terminal chunk, so the emitted frames do not form the claimed
`Response · Chunk* · empty-Chunk` sequence. -/
theorem executor_stream_counterexample :
    conformsC2 "t1"
      (executeHTTPRequest "t1" false
        (.ok { status := 200, reads := [{ bytes := [], err := some .canceled }] })) = false := by
  decide

/-- C2 (amended): for a successful outbound call whose body reads observe the
10240-byte buffer bound and end in `io.EOF` or any non-cancellation error,
the emitted frames are exactly one `HttpTunnelResponse` first, then non-empty
chunks of at most 10240 bytes, terminated by exactly one zero-length chunk,
with no chunk before the header frame.  (A read ending in context
cancellation instead stops the stream without the terminal chunk — see the
counterexample.) -/
theorem executor_stream_conforms (id : String) (st : Int) (pre : List ReadStep)
    (last : ReadStep)
    (hpre : ∀ x ∈ pre, x.err = none)
    (hsize : ∀ x ∈ pre ++ [last], x.bytes.length ≤ 10240)
    (hterm : last.err = some .eof ∨ last.err = some .other) :
    conformsC2 id (executeHTTPRequest id false (.ok { status := st, reads := pre ++ [last] }))
      = true := by
  simp only [executeHTTPRequest, Bool.false_eq_true, if_false, makeResponse]
  simp only [conformsC2]
  rw [chunksThenTerminal_streamBody id pre last hpre hsize hterm]
  simp

/-- Witness for C2 at a concrete input: two reads, the second ending in EOF,
produce the conforming frame sequence. -/
theorem executor_stream_conforms_witness :
    conformsC2 "t1"
      (executeHTTPRequest "t1" false
        (.ok { status := 200,
               reads := [{ bytes := [1, 2], err := none },
                         { bytes := [3], err := some .eof }] })) = true :=
  executor_stream_conforms "t1" 200 [{ bytes := [1, 2], err := none }]
    { bytes := [3], err := some .eof } (by decide) (by decide) (Or.inl rfl)

/-- C6: a failure to build the outbound request, or a failure of the outbound
call itself, makes the executor emit exactly one synthesized 502 response
frame carrying the transaction id, and no further frames. -/
theorem executor_502_on_failure (id : String) (doResult : Except String HttpResult) :
    (executeHTTPRequest id true doResult = [Frame.response id 502]) ∧
    (∀ e, doResult = .error e →
      executeHTTPRequest id false doResult = [Frame.response id 502]) := by
  constructor
  · simp [executeHTTPRequest, makeBadGatewayResponse]
  · intro e he
    subst he
    simp [executeHTTPRequest, makeBadGatewayResponse]

/-- Witness for C6 at a concrete input: a failed outbound call yields exactly
the 502 frame. -/
theorem executor_502_on_failure_witness :
    executeHTTPRequest "t2" false (.error "connection refused") = [Frame.response "t2" 502] :=
  (executor_502_on_failure "t2" (.error "connection refused")).2 "connection refused" rfl

/-- C10: a body-read error other than EOF or context cancellation makes the
executor emit exactly the frames of a normally ended body — the last frame is
the zero-length terminal chunk, and no error or 502 frame is sent — so the
controller cannot distinguish the truncated body from a completed one. -/
theorem executor_read_error_looks_like_eof (id : String) (st : Int) (pre : List ReadStep)
    (s : ReadStep) (hpre : ∀ x ∈ pre, x.err = none) (hs : s.err = some .other) :
    (executeHTTPRequest id false (.ok { status := st, reads := pre ++ [s] }) =
      executeHTTPRequest id false
        (.ok { status := st, reads := pre ++ [{ bytes := s.bytes, err := some .eof }] })) ∧
    (executeHTTPRequest id false (.ok { status := st, reads := pre ++ [s] })).getLast? =
      some (Frame.chunk id []) := by
  have hstream : streamBody id (pre ++ [s]) =
      streamBody id (pre ++ [{ bytes := s.bytes, err := some .eof }]) := by
    induction pre with
    | nil => simp only [List.nil_append, streamBody, hs]
    | cons x t ih =>
      have hx : x.err = none := hpre x (by simp)
      have ht := ih fun y hy => hpre y (by simp [hy])
      simp only [List.cons_append, streamBody, hx, List.append_eq]
      rw [ht]
  constructor
  · simp only [executeHTTPRequest, Bool.false_eq_true, if_false]
    rw [hstream]
  · obtain ⟨mid, hmid⟩ := streamBody_ends_empty_chunk id pre s hpre (Or.inr hs)
    simp only [executeHTTPRequest, Bool.false_eq_true, if_false, makeResponse]
    rw [hmid, makeChunkedResponse, emptyBytes]
    rw [← List.cons_append]
    exact List.getLast?_concat _

/-- Witness for C10 at a concrete input: a data read followed by a non-EOF,
non-cancel read error yields the same frames as a clean EOF, ending in the
zero-length chunk. -/
theorem executor_read_error_looks_like_eof_witness :
    (executeHTTPRequest "t3" false
        (.ok { status := 200, reads := [{ bytes := [7], err := some .other }] }) =
      executeHTTPRequest "t3" false
        (.ok { status := 200, reads := [{ bytes := [7], err := some .eof }] })) ∧
    (executeHTTPRequest "t3" false
        (.ok { status := 200, reads := [{ bytes := [7], err := some .other }] })).getLast? =
      some (Frame.chunk "t3" []) :=
  executor_read_error_looks_like_eof "t3" 200 [] { bytes := [7], err := some .other }
    (by decide) rfl

/-! ### Kubernetes credential context (src/unnamed/part_004 and
src/app/agent/kubernetes.go) -/

/-- An x509 certificate, identified by its raw DER bytes
(`x509.Certificate.Equal` compares exactly the `Raw` field). -/
@[ext]
structure X509Certificate where
  raw : List UInt8
  deriving DecidableEq, Repr

/-- A TLS client certificate: the DER chain `Certificate`.  (Go indexes
`Certificate[0]`; the model reads the first element with an empty
default.) -/
@[ext]
structure TLSCertificate where
  certificate : List (List UInt8)
  deriving DecidableEq, Repr

/-- `kubeContext`: the credential context for calls to the Kubernetes API
server.  `none` renders a nil pointer. -/
structure kubeContext where
  username : String
  serverURL : String
  serverCA : Option X509Certificate
  clientCert : Option TLSCertificate
  token : String
  insecure : Bool
  deriving DecidableEq, Repr

/-- `tlsCertEqual`: both nil, or the first DER certificates byte-equal. -/
def tlsCertEqual (s1 s2 : Option TLSCertificate) : Bool :=
  match s1, s2 with
  | none, none => true
  | some _, none => false
  | none, some _ => false
  | some c1, some c2 => decide (c1.certificate.getD 0 [] = c2.certificate.getD 0 [])

/-- `x509CertEqual`: both nil, or `Equal` (raw DER bytes coincide). -/
def x509CertEqual (s1 s2 : Option X509Certificate) : Bool :=
  match s1, s2 with
  | none, none => true
  | some _, none => false
  | none, some _ => false
  | some c1, some c2 => decide (c1 = c2)

/-- `kubeContext.isSameAs`: scalar fields first, then the server CA, then the
client certificate. -/
def kubeContext.isSameAs (scf scf2 : kubeContext) : Bool :=
  if scf.username != scf2.username || scf.serverURL != scf2.serverURL ||
      scf.token != scf2.token || scf.insecure != scf2.insecure then false
  else if !x509CertEqual scf.serverCA scf2.serverCA then false
  else tlsCertEqual scf.clientCert scf2.clientCert

/-- One iteration of `updateServerContextTicker`: the freshly loaded context
replaces the stored one only when the structural comparison fails. -/
def updateServerContext (current loaded : kubeContext) : kubeContext :=
  if !current.isSameAs loaded then loaded else current

/-- The TLS client configuration assembled by `executeHTTPRequest`:
`InsecureSkipVerify` comes from the context, the CA pool holds the context's
CA when present, the client certificate list likewise. -/
structure TLSClientConfig where
  insecureSkipVerify : Bool
  rootCAs : Option X509Certificate
  certificates : List TLSCertificate
  deriving DecidableEq, Repr

/-- The TLS configuration `executeHTTPRequest` builds from a context
snapshot. -/
def tlsConfigFor (c : kubeContext) : TLSClientConfig :=
  { insecureSkipVerify := c.insecure
    rootCAs := c.serverCA
    certificates := match c.clientCert with | some cert => [cert] | none => [] }

/-- `loadServiceAccount` with the pod filesystem and environment as
parameters: the token file (already decoded to a string, as Go does with
`string(token)`), the CA file bytes, the pem+x509 parser, and the two
environment variables (empty string = unset).  The checks happen in source
order: token read, CA read, CA parse, port, host. -/
def loadServiceAccount (tokenFile : Except String String)
    (caFile : Except String (List UInt8))
    (parseCertificate : List UInt8 → Except String X509Certificate)
    (servicePort serviceHost : String) : Except String kubeContext :=
  match tokenFile with
  | .error e => .error e
  | .ok token =>
    match caFile with
    | .error e => .error e
    | .ok serverCA =>
      match parseCertificate serverCA with
      | .error e => .error e
      | .ok serverCert =>
        if servicePort.length = 0 then
          .error "unable to locate API server from KUBERNETES_SERVICE_PORT environment variable"
        else if serviceHost.length = 0 then
          .error "unable to locate API server from KUBERNETES_SERVICE_HOST environment variable"
        else
          .ok { username := "ServiceAccount"
                serverURL := "https://" ++ serviceHost ++ ":" ++ servicePort
                serverCA := some serverCert
                clientCert := none
                token := token
                insecure := true }

/-! ### Claim theorems: credential context -/

theorem x509CertEqual_iff (s1 s2 : Option X509Certificate) :
    x509CertEqual s1 s2 = true ↔
      ((s1 = none ∧ s2 = none) ∨ ∃ a b, s1 = some a ∧ s2 = some b ∧ a.raw = b.raw) := by
  cases s1 <;> cases s2 <;> simp [x509CertEqual]
  exact ⟨fun h => h ▸ rfl, fun h => X509Certificate.ext h⟩

theorem tlsCertEqual_iff (s1 s2 : Option TLSCertificate) :
    tlsCertEqual s1 s2 = true ↔
      ((s1 = none ∧ s2 = none) ∨ ∃ a b, s1 = some a ∧ s2 = some b ∧
        a.certificate.getD 0 [] = b.certificate.getD 0 []) := by
  cases s1 <;> cases s2 <;> simp [tlsCertEqual]

/-- C8: `isSameAs` holds exactly when the scalar fields coincide, the server
CAs are both absent or byte-equal, and the client certificates are both
absent or have identical first DER entries; one refresh iteration replaces
the stored context precisely when the comparison fails. -/
theorem isSameAs_iff_structural (c1 c2 : kubeContext) :
    (c1.isSameAs c2 = true ↔
      c1.username = c2.username ∧ c1.serverURL = c2.serverURL ∧ c1.token = c2.token ∧
        c1.insecure = c2.insecure ∧
        ((c1.serverCA = none ∧ c2.serverCA = none) ∨
          ∃ a b, c1.serverCA = some a ∧ c2.serverCA = some b ∧ a.raw = b.raw) ∧
        ((c1.clientCert = none ∧ c2.clientCert = none) ∨
          ∃ a b, c1.clientCert = some a ∧ c2.clientCert = some b ∧
            a.certificate.getD 0 [] = b.certificate.getD 0 [])) ∧
    (c1.isSameAs c2 = true → updateServerContext c1 c2 = c1) ∧
    (c1.isSameAs c2 = false → updateServerContext c1 c2 = c2) := by
  refine ⟨?_, ?_, ?_⟩
  · rw [← x509CertEqual_iff, ← tlsCertEqual_iff]
    unfold kubeContext.isSameAs
    by_cases hx : (c1.username != c2.username || c1.serverURL != c2.serverURL ||
        c1.token != c2.token || c1.insecure != c2.insecure) = true
    · rw [if_pos hx]
      simp only [Bool.or_eq_true, bne_iff_ne, ne_eq] at hx
      constructor
      · intro h; cases h
      · rintro ⟨h1, h2, h3, h4, -⟩
        rcases hx with ((h | h) | h) | h
        exacts [(h h1).elim, (h h2).elim, (h h3).elim, (h h4).elim]
    · rw [if_neg hx]
      simp only [Bool.or_eq_true, bne_iff_ne, ne_eq, not_or, not_not] at hx
      obtain ⟨⟨⟨h1, h2⟩, h3⟩, h4⟩ := hx
      by_cases hca : x509CertEqual c1.serverCA c2.serverCA = true
      · rw [hca]
        simp [h1, h2, h3, h4, hca]
      · rw [Bool.not_eq_true] at hca
        rw [hca]
        simp [hca]
  · intro h
    simp [updateServerContext, h]
  · intro h
    simp [updateServerContext, h]

/-- Witness for C8 at concrete inputs: a context is `isSameAs` itself and is
kept by the refresh; a context with a different token is replaced. -/
theorem isSameAs_iff_structural_witness :
    (updateServerContext
        { username := "u", serverURL := "https://k", serverCA := none, clientCert := none,
          token := "t", insecure := false }
        { username := "u", serverURL := "https://k", serverCA := none, clientCert := none,
          token := "t", insecure := false } =
      { username := "u", serverURL := "https://k", serverCA := none, clientCert := none,
        token := "t", insecure := false }) ∧
    (updateServerContext
        { username := "u", serverURL := "https://k", serverCA := none, clientCert := none,
          token := "t", insecure := false }
        { username := "u", serverURL := "https://k", serverCA := none, clientCert := none,
          token := "t2", insecure := false } =
      { username := "u", serverURL := "https://k", serverCA := none, clientCert := none,
        token := "t2", insecure := false }) :=
  ⟨(isSameAs_iff_structural _ _).2.1 (by decide),
   (isSameAs_iff_structural _ _).2.2 (by decide)⟩

/-- C9: every successful in-pod service-account load yields exactly the
context `{username := "ServiceAccount", serverURL := "https://host:port",
the parsed CA, the file's token, insecure := true}`, and the TLS client
configuration the executor builds from that context has server verification
disabled even though it carries the CA pool. -/
theorem loadServiceAccount_insecure (token : String) (caBytes : List UInt8)
    (parseCertificate : List UInt8 → Except String X509Certificate)
    (cert : X509Certificate) (hparse : parseCertificate caBytes = .ok cert)
    (port host : String) (hport : port.length ≠ 0) (hhost : host.length ≠ 0) :
    (loadServiceAccount (.ok token) (.ok caBytes) parseCertificate port host =
      .ok { username := "ServiceAccount"
            serverURL := "https://" ++ host ++ ":" ++ port
            serverCA := some cert
            clientCert := none
            token := token
            insecure := true }) ∧
    (∀ c, loadServiceAccount (.ok token) (.ok caBytes) parseCertificate port host = .ok c →
      (tlsConfigFor c).insecureSkipVerify = true ∧ (tlsConfigFor c).rootCAs = some cert) := by
  have hmain : loadServiceAccount (.ok token) (.ok caBytes) parseCertificate port host =
      .ok { username := "ServiceAccount"
            serverURL := "https://" ++ host ++ ":" ++ port
            serverCA := some cert
            clientCert := none
            token := token
            insecure := true } := by
    unfold loadServiceAccount
    dsimp only
    rw [hparse]
    dsimp only
    rw [if_neg hport, if_neg hhost]
  refine ⟨hmain, ?_⟩
  intro c hc
  rw [hmain] at hc
  injection hc with hc
  subst hc
  exact ⟨rfl, rfl⟩

/-- Witness for C9 at a concrete input: a parsed CA, token file and in-pod
environment produce the insecure ServiceAccount context. -/
theorem loadServiceAccount_insecure_witness :
    loadServiceAccount (.ok "tok") (.ok [1])
        (fun b => if b = [1] then .ok { raw := [1] } else .error "bad pem") "443" "10.0.0.1" =
      .ok { username := "ServiceAccount"
            serverURL := "https://" ++ "10.0.0.1" ++ ":" ++ "443"
            serverCA := some { raw := [1] }
            clientCert := none
            token := "tok"
            insecure := true } :=
  (loadServiceAccount_insecure "tok" [1]
      (fun b => if b = [1] then .ok { raw := [1] } else .error "bad pem")
      { raw := [1] } rfl "443" "10.0.0.1" (by decide) (by decide)).1

/-! ### Identity binding (src/app/agent/kubernetes.go, forwarder-controller
main: getAgentNameFromContext / getAgentNameFromCertificate) -/

/-- A peer certificate as the identity binding sees it: the subject's OU
entries. -/
structure PeerCertificate where
  organizationalUnit : List String
  deriving DecidableEq, Repr

/-- Modelled from the spec: `CertificateName` of the `ca` package (not under
src/), the JSON blob carried in the certificate OU, with a purpose and the
agent name. -/
structure CertificateName where
  purpose : String
  agent : String
  name : String
  deriving DecidableEq, Repr

/-- Modelled from the spec: `ca.CertificatePurposeAgent` — purposes are the
strings `agent`, `control`, `service`. -/
def CertificatePurposeAgent : String := "agent"

/-- An error returned from the extraction: `status.Error(codes.Unauthenticated,
msg)` or a plain Go error carrying no gRPC status code. -/
inductive ExtractError
  | unauthenticated (msg : String)
  | plain (msg : String)
  deriving DecidableEq, Repr

/-- Modelled from the spec: `ca.GetCertificateNameFromCert` (not under src/)
parses the leaf certificate's OU as JSON into a `CertificateName`; the JSON
decoding itself is the oracle `parseJSON`, failing on malformed input, and
an absent OU fails as well.  Its errors are plain Go errors. -/
def GetCertificateNameFromCert (parseJSON : String → Except String CertificateName)
    (cert : PeerCertificate) : Except String CertificateName :=
  match cert.organizationalUnit with
  | [] => .error "no organizational unit in certificate"
  | ou :: _ => parseJSON ou

/-- `getAgentNameFromCertificate`: parse the OU into names; a parse failure
is passed through and a purpose other than `agent` yields
`fmt.Errorf("not an agent certificate")` — both plain errors, with no gRPC
status attached; on success the result is `names.Agent`. -/
def getAgentNameFromCertificate (parseJSON : String → Except String CertificateName)
    (cert : PeerCertificate) : Except ExtractError String :=
  match GetCertificateNameFromCert parseJSON cert with
  | .error e => .error (.plain e)
  | .ok names =>
    if names.purpose ≠ CertificatePurposeAgent then .error (.plain "not an agent certificate")
    else .ok names.agent

/-- The peer information attached to the stream context: no peer at all,
non-TLS transport credentials, or TLS credentials carrying the verified
chains. -/
inductive PeerAuthInfo
  | notTLS
  | tls (verifiedChains : List (List PeerCertificate))
  deriving DecidableEq, Repr

/-- `getAgentNameFromContext`: a missing peer, non-TLS credentials, or an
absent/empty verified chain fail with `codes.Unauthenticated`; otherwise the
leaf `VerifiedChains[0][0]` is handed to `getAgentNameFromCertificate`. -/
def getAgentNameFromContext (parseJSON : String → Except String CertificateName)
    (peer : Option PeerAuthInfo) : Except ExtractError String :=
  match peer with
  | none => .error (.unauthenticated "no peer found")
  | some .notTLS => .error (.unauthenticated "unexpected peer transport credentials")
  | some (.tls verifiedChains) =>
    match verifiedChains with
    | [] => .error (.unauthenticated "could not verify peer certificate")
    | chain :: _ =>
      match chain with
      | [] => .error (.unauthenticated "could not verify peer certificate")
      | leaf :: _ => getAgentNameFromCertificate parseJSON leaf

/-- The leaf certificate the controller inspects, when a verified chain is
present: `VerifiedChains[0][0]`. -/
def leafCertificate : Option PeerAuthInfo → Option PeerCertificate
  | some (.tls ((leaf :: _) :: _)) => some leaf
  | _ => none

/-- Whether an extraction result is a `codes.Unauthenticated` failure. -/
def isUnauthenticatedError : Except ExtractError String → Bool
  | .error (.unauthenticated _) => true
  | _ => false

/-- A concrete decoding oracle for the witnesses: two known OU blobs decode,
anything else is malformed. -/
def parseOUForTest : String → Except String CertificateName := fun s =>
  if s = "agent-ou" then .ok { purpose := "agent", agent := "a1", name := "" }
  else if s = "control-ou" then .ok { purpose := "control", agent := "", name := "" }
  else .error "invalid JSON"

/-! ### Claim theorems: identity binding -/

/-- C3 (counterexample): a verified chain whose leaf OU decodes to a
`CertificateName` with purpose `control` makes the extraction fail — but
with a plain `not an agent certificate` error, not with an unauthenticated
status. -/
theorem agent_name_wrong_purpose_counterexample :
    (getAgentNameFromContext parseOUForTest
        (some (.tls [[{ organizationalUnit := ["control-ou"] }]])) =
      .error (.plain "not an agent certificate")) ∧
    isUnauthenticatedError
      (getAgentNameFromContext parseOUForTest
        (some (.tls [[{ organizationalUnit := ["control-ou"] }]]))) = false := by
  constructor
  · rfl
  · rfl

/-- C3 (amended): extraction succeeds with the certificate's agent field
exactly when a verified leaf exists whose OU decodes to a `CertificateName`
with purpose `agent`; a missing peer, non-TLS credentials, or an
absent/empty verified chain fail with an unauthenticated status; a malformed
OU or a wrong purpose fail with a plain error carrying no gRPC status. -/
theorem agent_name_extraction (parseJSON : String → Except String CertificateName)
    (peer : Option PeerAuthInfo) :
    (∀ a, getAgentNameFromContext parseJSON peer = .ok a ↔
      ∃ leaf names, leafCertificate peer = some leaf ∧
        GetCertificateNameFromCert parseJSON leaf = .ok names ∧
        names.purpose = CertificatePurposeAgent ∧ a = names.agent) ∧
    (leafCertificate peer = none →
      ∃ msg, getAgentNameFromContext parseJSON peer = .error (.unauthenticated msg)) ∧
    (∀ leaf, leafCertificate peer = some leaf →
      (∀ e, GetCertificateNameFromCert parseJSON leaf = .error e →
        getAgentNameFromContext parseJSON peer = .error (.plain e)) ∧
      (∀ names, GetCertificateNameFromCert parseJSON leaf = .ok names →
        names.purpose ≠ CertificatePurposeAgent →
        getAgentNameFromContext parseJSON peer = .error (.plain "not an agent certificate"))) := by
  have hleaf : ∀ leaf, leafCertificate peer = some leaf →
      getAgentNameFromContext parseJSON peer = getAgentNameFromCertificate parseJSON leaf := by
    intro leaf h
    match peer with
    | none => cases h
    | some .notTLS => cases h
    | some (.tls []) => cases h
    | some (.tls ([] :: _)) => cases h
    | some (.tls ((l :: _) :: _)) =>
      simp only [leafCertificate, Option.some.injEq] at h
      subst h
      rfl
  refine ⟨?_, ?_, ?_⟩
  · intro a
    constructor
    · intro h
      match peer with
      | none => cases h
      | some .notTLS => cases h
      | some (.tls []) => cases h
      | some (.tls ([] :: _)) => cases h
      | some (.tls ((l :: _) :: _)) =>
        refine ⟨l, ?_⟩
        replace h : getAgentNameFromCertificate parseJSON l = .ok a := h
        unfold getAgentNameFromCertificate at h
        cases hn : GetCertificateNameFromCert parseJSON l with
        | error e => rw [hn] at h; cases h
        | ok names =>
          rw [hn] at h
          dsimp only at h
          by_cases hp : names.purpose ≠ CertificatePurposeAgent
          · rw [if_pos hp] at h; cases h
          · rw [if_neg hp] at h
            injection h with h
            exact ⟨names, rfl, rfl, not_not.mp hp, h.symm⟩
    · rintro ⟨leaf, names, hlf, hn, hp, ha⟩
      rw [hleaf leaf hlf]
      unfold getAgentNameFromCertificate
      rw [hn]
      dsimp only
      rw [if_neg (not_not.mpr hp), ha]
  · intro h
    match peer with
    | none => exact ⟨_, rfl⟩
    | some .notTLS => exact ⟨_, rfl⟩
    | some (.tls []) => exact ⟨_, rfl⟩
    | some (.tls ([] :: _)) => exact ⟨_, rfl⟩
    | some (.tls ((l :: _) :: _)) => cases h
  · intro leaf hlf
    constructor
    · intro e he
      rw [hleaf leaf hlf]
      unfold getAgentNameFromCertificate
      rw [he]
    · intro names hn hp
      rw [hleaf leaf hlf]
      unfold getAgentNameFromCertificate
      rw [hn]
      dsimp only
      rw [if_pos hp]

/-- Witness for C3 (amended) at concrete inputs: a missing peer is
unauthenticated; an agent-purpose OU extracts the agent name; a
control-purpose OU fails with the plain wrong-purpose error. -/
theorem agent_name_extraction_witness :
    (∃ msg, getAgentNameFromContext parseOUForTest none = .error (.unauthenticated msg)) ∧
    (getAgentNameFromContext parseOUForTest
        (some (.tls [[{ organizationalUnit := ["agent-ou"] }]])) = .ok "a1") ∧
    (getAgentNameFromContext parseOUForTest
        (some (.tls [[{ organizationalUnit := ["control-ou"] }]])) =
      .error (.plain "not an agent certificate")) :=
  ⟨(agent_name_extraction parseOUForTest none).2.1 rfl,
   ((agent_name_extraction parseOUForTest
        (some (.tls [[{ organizationalUnit := ["agent-ou"] }]]))).1 "a1").mpr
     ⟨{ organizationalUnit := ["agent-ou"] },
      { purpose := "agent", agent := "a1", name := "" }, rfl, rfl, rfl, rfl⟩,
   ((agent_name_extraction parseOUForTest
        (some (.tls [[{ organizationalUnit := ["control-ou"] }]]))).2.2
      { organizationalUnit := ["control-ou"] } rfl).2
     { purpose := "control", agent := "", name := "" } rfl (by decide)⟩

end OesBirger
